import Mathlib

/-!
# Verification of the GPU resource and upload core of PSYTROPS/graphics

Shallow embedding of the memory allocator (`src/base.rs`, `Base::allocate`),
the staging arena (`src/transfer/arena.rs`), the transfer transaction
(`src/transfer/transaction.rs`), the transfer engine (`src/transfer.rs`,
`Transfer::submit`) and the blocking waits of the frame pipeline
(`src/lib.rs`, `Renderer::draw`), together with proofs of the specified
properties.

Machine integers (`u32`, `u64`, `usize`) are modelled as `Nat`; none of the
modelled arithmetic can overflow on inputs within the types' ranges, except
where noted. Vulkan handles and opaque descriptor fields are modelled as
`Nat` tokens. Fallible paths become `Option`/explicit outcome types, and the
Rust panic on `x % 0` is modelled as an explicit outcome.
-/

namespace Graphics

/-! ## Memory allocator (`src/base.rs`, lines 245-282)

`Base::allocate` walks a slice of `vk::MemoryRequirements`, computing for
each a running-size offset rounded up to its alignment and intersecting the
`memory_type_bits` masks, then picks the first compatible memory type.
-/

/-- `vk::MemoryRequirements`: size, alignment and memory-type bitmask. -/
structure MemoryRequirements where
  size : Nat
  alignment : Nat
  memoryTypeBits : Nat
  deriving DecidableEq, Repr

/-- A `vk::MemoryType`: its property-flag bitmask. -/
structure MemoryType where
  propertyFlags : Nat
  deriving DecidableEq, Repr

/-- `u32::MAX`, the initial value of `supported_memory_types`. -/
def u32Max : Nat := 2 ^ 32 - 1

/-- The alignment rounding of the allocate loop body:
`if size % reqs.alignment != 0 { size = (size / reqs.alignment + 1) * reqs.alignment }`. -/
def alignRound (size alignment : Nat) : Nat :=
  if size % alignment ≠ 0 then (size / alignment + 1) * alignment else size

/-- The offset-computing loop of `Base::allocate` (base.rs lines 253-263),
carrying the running `size` and the intersected `supported_memory_types`
mask. Rust's `size % reqs.alignment` panics (integer division by zero) when
`reqs.alignment == 0`; that panic is modelled by the `none` result.
Returns `(offsets, total size, intersected mask)`. -/
def computeOffsets (size mask : Nat) : List MemoryRequirements →
    Option (List Nat × Nat × Nat)
  | [] => some ([], size, mask)
  | reqs :: rest =>
    if reqs.alignment = 0 then none
    else
      let offset := alignRound size reqs.alignment
      match computeOffsets (offset + reqs.size) (mask &&& reqs.memoryTypeBits) rest with
      | none => none
      | some (offsets, total, m) => some (offset :: offsets, total, m)

/-- The condition of the `find` closure in `Base::allocate`, at list index
`i`: the memory type's property flags contain the requested `properties`
(`FlagSet::contains` on Vulkan flag bitmasks is
`flags & properties == properties`), and bit `i` of the intersected mask is
set (`(supported_memory_types >> i) & 1 == 1`). -/
def memTypeOk (properties supported i : Nat) (memType : MemoryType) : Bool :=
  decide (memType.propertyFlags &&& properties = properties) &&
    decide ((supported >>> i) &&& 1 = 1)

/-- The memory-type search of `Base::allocate` (base.rs lines 269-275):
`.iter().enumerate().find(|(i, mem_type)| mem_type.property_flags.contains(properties)
&& (supported_memory_types >> i) & 1 == 1)`, returning the index. -/
def findMemoryType (properties supported : Nat) : Nat → List MemoryType → Option Nat
  | _, [] => none
  | i, memType :: rest =>
    if memTypeOk properties supported i memType
    then some i
    else findMemoryType properties supported (i + 1) rest

/-- Outcome of `Base::allocate`: a Rust panic (division by zero in the
offset loop), the `Err(vk::Result::ERROR_UNKNOWN)` branch when no memory
type qualifies, or success with the chosen memory type index, the offsets
and the total allocation size. The final `vkAllocateMemory` device call is
external to the embedding; its success is the `ok` outcome. -/
inductive AllocOutcome where
  | panic
  | error
  | ok (memoryTypeIndex : Nat) (offsets : List Nat) (size : Nat)
  deriving DecidableEq, Repr

/-- `Base::allocate` (base.rs lines 247-282): compute offsets, mask, then
select the memory type. `memoryTypes` is the valid prefix
`memory_types[..memory_type_count]` of the device's memory properties. -/
def allocate (memoryTypes : List MemoryType) (requirements : List MemoryRequirements)
    (properties : Nat) : AllocOutcome :=
  match computeOffsets 0 u32Max requirements with
  | none => .panic
  | some (offsets, size, supported) =>
    match findMemoryType properties supported 0 memoryTypes with
    | none => .error
    | some i => .ok i offsets size

/-- The offsets as the spec's algorithm paragraph describes them: each offset
is the previous running size rounded up to the current requirement's
alignment, and the running size then advances by the requirement's size. -/
def layoutOffsets (size : Nat) : List MemoryRequirements → List Nat
  | [] => []
  | reqs :: rest =>
    alignRound size reqs.alignment :: layoutOffsets (alignRound size reqs.alignment + reqs.size) rest

/-- The total size the offset loop accumulates. -/
def totalSize (size : Nat) : List MemoryRequirements → Nat
  | [] => size
  | reqs :: rest => totalSize (alignRound size reqs.alignment + reqs.size) rest

/-! ## Staging arena (`src/transfer/arena.rs`)

The arena owns a raw allocation (`data`, `layout`) and a content size.
Memory is modelled as a total function from byte index to byte value;
uninitialised bytes read as `0`. The ghost field `reallocs` counts the
(re)allocation events in `extend`, so that "does not reallocate" is
expressible. `extend` is generic over `T` in the source and writes
`size_of::<T>() * data.len()` bytes; it is modelled at `T = u8`
(element size one), so the input is a byte list. -/

/-- `const ALIGNMENT: usize = 8` (arena.rs line 3). -/
def ALIGNMENT : Nat := 8

/-- The size rounding in `Arena::extend` (arena.rs line 23):
`(len + ALIGNMENT - 1) & !(ALIGNMENT - 1)`, which for values below `2^64`
equals rounding up to the next multiple of `ALIGNMENT`. -/
def roundUpAlign (n : Nat) : Nat := (n + ALIGNMENT - 1) / ALIGNMENT * ALIGNMENT

structure Arena where
  /-- Byte store: the memory reachable through `data: *mut u8`. -/
  data : Nat → Nat
  /-- Content size (the `size` field). -/
  size : Nat
  /-- `layout.size()`: the capacity of the current allocation. -/
  capacity : Nat
  /-- Ghost: how many `alloc`/`realloc` calls `extend` has made. -/
  reallocs : Nat

/-- `Arena::new` (arena.rs lines 12-20). -/
def Arena.new (size : Nat) : Arena :=
  { data := fun _ => 0, size := 0, capacity := size, reallocs := 0 }

/-- Writing `bytes` at `offset` into a byte store. -/
def writeBytes (d : Nat → Nat) (offset : Nat) (bytes : List Nat) : Nat → Nat :=
  fun i => if offset ≤ i ∧ i < offset + bytes.length then bytes.getD (i - offset) 0 else d i

/-- `Arena::extend` (arena.rs lines 22-48): round the byte count up to the
alignment, take the current content size as the returned offset, grow the
content size, reallocate to exactly the new content size when it exceeds
the capacity (`realloc` preserves the old contents), and write the data at
the offset. -/
def Arena.extend (a : Arena) (bytes : List Nat) : Arena × Nat :=
  let sz := roundUpAlign bytes.length
  let offset := a.size
  let newSize := a.size + sz
  if newSize > a.capacity then
    ({ data := writeBytes a.data offset bytes, size := newSize, capacity := newSize,
       reallocs := a.reallocs + 1 }, offset)
  else
    ({ data := writeBytes a.data offset bytes, size := newSize, capacity := a.capacity,
       reallocs := a.reallocs }, offset)

/-- `Arena::ptr` reads: the `len` bytes starting at `offset`. -/
def Arena.readBack (a : Arena) (offset len : Nat) : List Nat :=
  (List.range len).map fun i => a.data (offset + i)

/-- `Arena::size` (arena.rs lines 54-56): returns `self.layout.size()`,
the capacity — not the content size. -/
def Arena.sizeMethod (a : Arena) : Nat := a.capacity

/-- `Arena::clear` (arena.rs lines 58-60): resets the content size only. -/
def Arena.clear (a : Arena) : Arena := { a with size := 0 }

/-! ## Transaction (`src/transfer/transaction.rs`)

Vulkan handles (`vk::Buffer`, `vk::Image`) and the opaque
`vk::ImageSubresourceRange` are modelled as `Nat` tokens. A
`vk::BufferImageCopy2` keeps its `buffer_offset` (the only field the code
touches) plus one `Nat` standing for all its remaining fields. Fields a
`vk::ImageMemoryBarrier2` builder leaves unset default to zero. -/

/-- `vk::ImageLayout::UNDEFINED`. -/
def IMAGE_LAYOUT_UNDEFINED : Nat := 0
/-- `vk::ImageLayout::TRANSFER_DST_OPTIMAL`. -/
def IMAGE_LAYOUT_TRANSFER_DST_OPTIMAL : Nat := 7
/-- `vk::PipelineStageFlags2::NONE`. -/
def PIPELINE_STAGE_2_NONE : Nat := 0
/-- `vk::PipelineStageFlags2::TRANSFER` (`VK_PIPELINE_STAGE_2_ALL_TRANSFER_BIT`). -/
def PIPELINE_STAGE_2_TRANSFER : Nat := 4096
/-- `vk::AccessFlags2::NONE`. -/
def ACCESS_2_NONE : Nat := 0
/-- `vk::AccessFlags2::TRANSFER_WRITE`. -/
def ACCESS_2_TRANSFER_WRITE : Nat := 4096

structure BufferTransfer where
  src_offset : Nat
  size : Nat
  dst : Nat
  dst_offset : Nat
  deriving DecidableEq, Repr

structure ImageTransfer where
  dst : Nat
  subresource_range : Nat
  region_offset : Nat
  region_count : Nat
  layout : Nat
  deriving DecidableEq, Repr

structure BufferImageCopy where
  buffer_offset : Nat
  /-- All other fields of `vk::BufferImageCopy2`, untouched by the code. -/
  rest : Nat
  deriving DecidableEq, Repr

structure ImageMemoryBarrier where
  src_stage_mask : Nat
  src_access_mask : Nat
  dst_stage_mask : Nat
  dst_access_mask : Nat
  old_layout : Nat
  new_layout : Nat
  src_queue_family_index : Nat
  dst_queue_family_index : Nat
  image : Nat
  subresource_range : Nat
  deriving DecidableEq, Repr

structure Transaction where
  src_queue_family : Nat
  dst_queue_family : Nat
  arena : Arena
  buffer_transfers : List BufferTransfer
  image_transfers : List ImageTransfer
  regions : List BufferImageCopy
  start_image_barriers : List ImageMemoryBarrier
  end_image_barriers : List ImageMemoryBarrier

/-- `Transaction::new` (transaction.rs lines 34-49). -/
def Transaction.new (src_queue_family dst_queue_family : Nat) : Transaction :=
  { src_queue_family, dst_queue_family, arena := Arena.new 0,
    buffer_transfers := [], image_transfers := [], regions := [],
    start_image_barriers := [], end_image_barriers := [] }

/-- The barrier pushed onto `start_image_barriers` by `Transaction::image_write`
(transaction.rs lines 89-100). -/
def startBarrier (src_queue_family dst subresource_range : Nat) : ImageMemoryBarrier :=
  { src_stage_mask := PIPELINE_STAGE_2_NONE, src_access_mask := ACCESS_2_NONE,
    dst_stage_mask := PIPELINE_STAGE_2_TRANSFER, dst_access_mask := ACCESS_2_TRANSFER_WRITE,
    old_layout := IMAGE_LAYOUT_UNDEFINED, new_layout := IMAGE_LAYOUT_TRANSFER_DST_OPTIMAL,
    src_queue_family_index := src_queue_family, dst_queue_family_index := src_queue_family,
    image := dst, subresource_range }

/-- The barrier pushed onto `end_image_barriers` by `Transaction::image_write`
(transaction.rs lines 101-108); the stage/access masks are left at the
builder's zero defaults. -/
def endBarrier (src_queue_family dst_queue_family dst subresource_range layout : Nat) :
    ImageMemoryBarrier :=
  { src_stage_mask := 0, src_access_mask := 0, dst_stage_mask := 0, dst_access_mask := 0,
    old_layout := IMAGE_LAYOUT_TRANSFER_DST_OPTIMAL, new_layout := layout,
    src_queue_family_index := src_queue_family, dst_queue_family_index := dst_queue_family,
    image := dst, subresource_range }

/-- `Transaction::buffer_write` (transaction.rs lines 51-65), at `T = u8`. -/
def Transaction.buffer_write (t : Transaction) (src : List Nat) (dst dst_offset : Nat) :
    Transaction :=
  let ext := t.arena.extend src
  { t with
    arena := ext.1,
    buffer_transfers := t.buffer_transfers ++
      [{ src_offset := ext.2, size := src.length, dst, dst_offset }] }

/-- `Transaction::image_write` (transaction.rs lines 67-109), at `T = u8`:
extend the arena, append the supplied regions with their `buffer_offset`
shifted by the arena offset, and push one image transfer, one start-barrier
and one end-barrier. -/
def Transaction.image_write (t : Transaction) (src : List Nat) (dst subresource_range : Nat)
    (regions : List BufferImageCopy) (layout : Nat) : Transaction :=
  let ext := t.arena.extend src
  let region_offset := t.regions.length
  { t with
    arena := ext.1,
    regions := t.regions ++ regions.map (fun r => { r with buffer_offset := r.buffer_offset + ext.2 }),
    image_transfers := t.image_transfers ++
      [{ dst, subresource_range, region_offset, region_count := regions.length, layout }],
    start_image_barriers := t.start_image_barriers ++
      [startBarrier t.src_queue_family dst subresource_range],
    end_image_barriers := t.end_image_barriers ++
      [endBarrier t.src_queue_family t.dst_queue_family dst subresource_range layout] }

/-- `Transaction::clear` (transaction.rs lines 111-119). -/
def Transaction.clearAll (t : Transaction) : Transaction :=
  { t with
    arena := t.arena.clear,
    buffer_transfers := [], image_transfers := [],
    start_image_barriers := [], end_image_barriers := [], regions := [] }

/-- The arguments of one `image_write` call. -/
structure ImageWriteArgs where
  src : List Nat
  dst : Nat
  subresource_range : Nat
  regions : List BufferImageCopy
  layout : Nat

/-- A sequence of `image_write` calls. -/
def Transaction.imageWrites (t : Transaction) (ws : List ImageWriteArgs) : Transaction :=
  ws.foldl (fun acc w => acc.image_write w.src w.dst w.subresource_range w.regions w.layout) t

/-- The image transfers a sequence of `image_write` calls pushes, starting
from `off` accumulated regions. -/
def transfersFrom (off : Nat) : List ImageWriteArgs → List ImageTransfer
  | [] => []
  | w :: ws =>
    { dst := w.dst, subresource_range := w.subresource_range, region_offset := off,
      region_count := w.regions.length, layout := w.layout } ::
    transfersFrom (off + w.regions.length) ws

/-! ## Transfer engine (`src/transfer.rs`)

`Transfer::submit` is modelled as a function from the engine state, the
transaction, the frame index and an oracle for the outcome of the device
wait, to the sequence of device actions it performs plus either an error or
the returned `(semaphore, counter)` pair and the successor state. The
per-frame timeline semaphore is identified by its frame index, as is the
per-frame staging buffer handle. Device-call failures other than the wait
(`begin_command_buffer`, `queue_submit2`) would propagate the same way via
`?` and are not modelled. -/

/-- `const TIMEOUT: u64 = 2_000_000_000` (transfer.rs line 7), in nanoseconds. -/
def TIMEOUT : Nat := 2000000000

/-- `u64::MAX`: as a Vulkan wait timeout this sentinel means "wait forever". -/
def u64Max : Nat := 2 ^ 64 - 1

/-- A command recorded into the transfer command buffer. -/
inductive Cmd where
  /-- `cmd_copy_buffer` of one region (src buffer, dst buffer, region). -/
  | copyBuffer (src dst src_offset dst_offset size : Nat)
  /-- `cmd_pipeline_barrier2` with the given image memory barriers. -/
  | pipelineBarrier (barriers : List ImageMemoryBarrier)
  /-- `cmd_copy_buffer_to_image2` (src buffer, dst image, dst layout, regions). -/
  | copyBufferToImage (src dst dst_layout : Nat) (regions : List BufferImageCopy)
  deriving DecidableEq, Repr

/-- The recording section of `Transfer::submit` (transfer.rs lines 133-169):
buffer copies, then the batched start-barriers (when any), then the
buffer-to-image copies, then the end-barriers (when any) — all into the
same command buffer. -/
def recordedCommands (stagingBuffer : Nat) (t : Transaction) : List Cmd :=
  (t.buffer_transfers.map fun tr =>
    Cmd.copyBuffer stagingBuffer tr.dst tr.src_offset tr.dst_offset tr.size) ++
  (if t.start_image_barriers.length > 0
   then [Cmd.pipelineBarrier t.start_image_barriers] else []) ++
  (t.image_transfers.map fun tr =>
    Cmd.copyBufferToImage stagingBuffer tr.dst IMAGE_LAYOUT_TRANSFER_DST_OPTIMAL
      ((t.regions.drop tr.region_offset).take tr.region_count)) ++
  (if t.end_image_barriers.length > 0
   then [Cmd.pipelineBarrier t.end_image_barriers] else [])

/-- The mutable fields of `Transfer` the claims are about: per-frame staging
sizes and per-frame submission counts (`counts: [u64; FRAME_COUNT]`). -/
structure TransferState where
  stagingSizes : List Nat
  counts : List Nat
  deriving DecidableEq, Repr

/-- One observable device action of `Transfer::submit`. -/
inductive Event where
  /-- `wait_semaphores` on the slot's timeline semaphore for `value`, bounded
  by `timeout` nanoseconds. -/
  | waitSemaphore (semaphore value timeout : Nat)
  /-- Replacing the slot's staging block (`Staging::new`) with `newSize` bytes. -/
  | recreateStaging (frame newSize : Nat)
  /-- `copy_to_nonoverlapping` of `byteCount` bytes from the arena into the
  slot's mapped staging memory. -/
  | writeStaging (frame byteCount : Nat)
  /-- `begin_command_buffer` on the slot's command buffer. -/
  | beginCommandBuffer (frame : Nat)
  /-- Recording one command into the slot's command buffer. -/
  | cmd (frame : Nat) (c : Cmd)
  /-- `end_command_buffer`. -/
  | endCommandBuffer (frame : Nat)
  /-- `queue_submit2`, signalling `signalSemaphore` to `signalValue`. -/
  | queueSubmit (frame signalSemaphore signalValue : Nat)
  deriving DecidableEq, Repr

/-- `Transfer::submit` (transfer.rs lines 110-191). `waitOk` is the oracle
for whether `wait_semaphores` succeeds within `TIMEOUT`; on failure the
`?` operator returns the error immediately. -/
def Transfer.submit (st : TransferState) (t : Transaction) (frame : Nat) (waitOk : Bool) :
    List Event × Except Unit (Nat × Nat × TransferState) :=
  let waitEv := Event.waitSemaphore frame (st.counts.getD frame 0) TIMEOUT
  if !waitOk then
    ([waitEv], .error ())
  else
    let needRealloc := st.stagingSizes.getD frame 0 < t.arena.sizeMethod
    let reEv := if needRealloc then [Event.recreateStaging frame t.arena.sizeMethod] else []
    let stagingSizes := if needRealloc
      then st.stagingSizes.set frame t.arena.sizeMethod else st.stagingSizes
    let newCount := st.counts.getD frame 0 + 1
    (waitEv :: reEv ++
      [Event.writeStaging frame t.arena.sizeMethod, Event.beginCommandBuffer frame] ++
      (recordedCommands frame t).map (Event.cmd frame) ++
      [Event.endCommandBuffer frame, Event.queueSubmit frame frame newCount],
     .ok (frame, newCount, { stagingSizes, counts := st.counts.set frame newCount }))

/-! ## The blocking waits of `Renderer::draw` (`src/lib.rs` lines 393-419)

Only the two waits at the head of `draw` matter to the claims: the
swapchain acquire (100 ms timeout) and the frame-fence wait (100 ms
timeout). The suboptimal-swapchain retry loop re-runs the acquire with the
same timeout; the oracle covers one acquisition. -/

/-- The `acquire_next_image` timeout (lib.rs line 399): 100 milliseconds. -/
def ACQUIRE_TIMEOUT : Nat := 100000000

/-- The frame-fence `wait_for_fences` timeout (lib.rs line 417): 100 milliseconds. -/
def FENCE_TIMEOUT : Nat := 100000000

/-- A blocking wait performed by `Renderer::draw`. -/
inductive DrawEvent where
  | acquireImage (timeout : Nat)
  | waitFence (timeout : Nat)
  deriving DecidableEq, Repr

/-- The wait prefix of `Renderer::draw`: acquire, then fence wait, each
surfacing its failure (`?`) as an error. -/
def Renderer.drawWaits (acquireOk fenceOk : Bool) : List DrawEvent × Except Unit Unit :=
  if !acquireOk then ([DrawEvent.acquireImage ACQUIRE_TIMEOUT], .error ())
  else if !fenceOk then
    ([DrawEvent.acquireImage ACQUIRE_TIMEOUT, DrawEvent.waitFence FENCE_TIMEOUT], .error ())
  else ([DrawEvent.acquireImage ACQUIRE_TIMEOUT, DrawEvent.waitFence FENCE_TIMEOUT], .ok ())

/-- A formalisation of the spec's "roughly one second", in nanoseconds:
within fifty percent of one second. -/
def roughlyOneSecond (timeout : Nat) : Prop :=
  500000000 ≤ timeout ∧ timeout ≤ 1500000000

/-! ### Helper lemmas about `alignRound` and `computeOffsets` -/

theorem alignRound_dvd (size alignment : Nat) :
    alignment ∣ alignRound size alignment := by
  unfold alignRound
  by_cases hm : size % alignment = 0
  · simpa [hm] using Nat.dvd_of_mod_eq_zero hm
  · simp only [hm, if_pos, ne_eq, not_false_iff]
    exact Dvd.intro_left _ rfl

theorem le_alignRound (size : Nat) {alignment : Nat} (h : 0 < alignment) :
    size ≤ alignRound size alignment := by
  unfold alignRound
  by_cases hm : size % alignment = 0
  · simp [hm]
  · simp only [hm, ne_eq, not_false_iff, if_pos]
    calc size = alignment * (size / alignment) + size % alignment :=
          (Nat.div_add_mod size alignment).symm
      _ ≤ alignment * (size / alignment) + alignment :=
          Nat.add_le_add_left (Nat.le_of_lt (Nat.mod_lt _ h)) _
      _ = (size / alignment + 1) * alignment := by ring

theorem alignRound_mod (size a : Nat) : alignRound size a % a = 0 := by
  obtain ⟨c, hc⟩ := alignRound_dvd size a
  simp [hc, Nat.mul_mod_right]

/-- On lists whose alignments are all positive, the offset loop does not
panic: its offsets are the alignment-rounded running sizes, its total is the
accumulated size and its mask the fold of `&` over the memory-type bits. -/
theorem computeOffsets_eq (reqs : List MemoryRequirements) :
    ∀ size mask, (∀ r ∈ reqs, 0 < r.alignment) →
    computeOffsets size mask reqs = some (layoutOffsets size reqs, totalSize size reqs,
      reqs.foldl (fun a r => a &&& r.memoryTypeBits) mask) := by
  induction reqs with
  | nil => intro size mask _; rfl
  | cons r rest ih =>
    intro size mask hpos
    have hr : 0 < r.alignment := hpos r (List.mem_cons_self r rest)
    have hrest : ∀ x ∈ rest, 0 < x.alignment := fun x hx => hpos x (List.mem_cons_of_mem r hx)
    have heq := ih (alignRound size r.alignment + r.size) (mask &&& r.memoryTypeBits) hrest
    simp [computeOffsets, Nat.pos_iff_ne_zero.mp hr, heq, layoutOffsets, totalSize]

/-- Every layout offset satisfies its requirement's alignment. -/
theorem layoutOffsets_aligned (reqs : List MemoryRequirements) :
    ∀ size, (∀ r ∈ reqs, 0 < r.alignment) →
    List.Forall₂ (fun r o => o % r.alignment = 0) reqs (layoutOffsets size reqs) := by
  induction reqs with
  | nil => intro size _; exact List.Forall₂.nil
  | cons r rest ih =>
    intro size hpos
    exact List.Forall₂.cons (alignRound_mod size r.alignment)
      (ih _ fun x hx => hpos x (List.mem_cons_of_mem r hx))

/-- Every layout offset is at least the starting running size. -/
theorem layoutOffsets_ge (reqs : List MemoryRequirements) :
    ∀ size, (∀ r ∈ reqs, 0 < r.alignment) →
    ∀ o ∈ layoutOffsets size reqs, size ≤ o := by
  induction reqs with
  | nil => intro size _ o ho; simp [layoutOffsets] at ho
  | cons r rest ih =>
    intro size hpos o ho
    have hr : 0 < r.alignment := hpos r (List.mem_cons_self r rest)
    have hle : size ≤ alignRound size r.alignment := le_alignRound size hr
    rcases List.mem_cons.mp ho with h | h
    · exact h ▸ hle
    · have := ih _ (fun x hx => hpos x (List.mem_cons_of_mem r hx)) o h
      omega

/-- The layout offsets are monotonically non-decreasing in input order. -/
theorem layoutOffsets_sorted (reqs : List MemoryRequirements) :
    ∀ size, (∀ r ∈ reqs, 0 < r.alignment) →
    (layoutOffsets size reqs).Sorted (· ≤ ·) := by
  induction reqs with
  | nil => intro size _; simp [layoutOffsets]
  | cons r rest ih =>
    intro size hpos
    have hrest : ∀ x ∈ rest, 0 < x.alignment := fun x hx => hpos x (List.mem_cons_of_mem r hx)
    rw [layoutOffsets, List.sorted_cons]
    refine ⟨fun b hb => ?_, ih _ hrest⟩
    have := layoutOffsets_ge rest _ hrest b hb
    omega

theorem layoutOffsets_length (reqs : List MemoryRequirements) :
    ∀ size, (layoutOffsets size reqs).length = reqs.length := by
  induction reqs with
  | nil => intro size; rfl
  | cons r rest ih => intro size; simp [layoutOffsets, ih]

/-! ### Lemmas about `findMemoryType` -/

/-- `findMemoryType` returns `none` exactly when no index qualifies. -/
theorem findMemoryType_none_iff (properties supported : Nat) :
    ∀ (types : List MemoryType) (i : Nat),
    findMemoryType properties supported i types = none ↔
    ∀ j t, types.get? j = some t → memTypeOk properties supported (i + j) t = false := by
  intro types
  induction types with
  | nil => intro i; simp [findMemoryType]
  | cons t rest ih =>
    intro i
    by_cases h : memTypeOk properties supported i t
    · constructor
      · intro habs; simp [findMemoryType, h] at habs
      · intro hall
        have := hall 0 t rfl
        simp [h] at this
    · simp only [findMemoryType, h, if_neg, Bool.false_eq_true, not_false_iff, ite_false]
      rw [ih (i + 1)]
      constructor
      · intro hall j s hj
        cases j with
        | zero =>
          simp only [List.get?] at hj
          cases hj
          simpa using h
        | succ j =>
          have := hall j s hj
          simpa [Nat.add_assoc, Nat.add_comm 1 j] using this
      · intro hall j s hj
        have := hall (j + 1) s hj
        simpa [Nat.add_assoc, Nat.add_comm 1 j] using this

/-- When `findMemoryType` returns `some k`, index `k` qualifies and is the
first qualifying index. -/
theorem findMemoryType_some_spec (properties supported : Nat) :
    ∀ (types : List MemoryType) (i k : Nat),
    findMemoryType properties supported i types = some k →
    i ≤ k ∧
    (∃ t, types.get? (k - i) = some t ∧ memTypeOk properties supported k t = true) ∧
    ∀ j, i ≤ j → j < k → ∃ t, types.get? (j - i) = some t ∧
      memTypeOk properties supported j t = false := by
  intro types
  induction types with
  | nil => intro i k h; simp [findMemoryType] at h
  | cons t rest ih =>
    intro i k h
    by_cases hc : memTypeOk properties supported i t
    · simp only [findMemoryType, hc, if_pos, Option.some_inj] at h
      subst h
      refine ⟨Nat.le_refl _, ⟨t, by simp, hc⟩, fun j hij hji => absurd hij (by omega)⟩
    · simp only [findMemoryType, hc, Bool.false_eq_true, not_false_iff, if_neg] at h
      obtain ⟨hik, ⟨s, hs, hok⟩, hfirst⟩ := ih (i + 1) k h
      refine ⟨by omega, ⟨s, ?_, hok⟩, ?_⟩
      · have : k - i = (k - (i + 1)) + 1 := by omega
        rw [this]; simpa using hs
      · intro j hij hjk
        rcases Nat.eq_or_lt_of_le hij with heq | hlt
        · subst heq
          exact ⟨t, by simp, by simpa using hc⟩
        · obtain ⟨u, hu, huok⟩ := hfirst j hlt hjk
          have : j - i = (j - (i + 1)) + 1 := by omega
          rw [this]
          exact ⟨u, by simpa using hu, huok⟩

/-- A zero intersected mask disqualifies every index. -/
theorem memTypeOk_zero_mask (properties i : Nat) (t : MemoryType) :
    memTypeOk properties 0 i t = false := by
  simp [memTypeOk]

/-- A requirements list containing a zero alignment makes the offset loop
panic (`size % 0`). -/
theorem computeOffsets_none_of_zero (reqs : List MemoryRequirements) :
    ∀ size mask, (∃ r ∈ reqs, r.alignment = 0) →
    computeOffsets size mask reqs = none := by
  induction reqs with
  | nil => intro size mask h; simp at h
  | cons r rest ih =>
    intro size mask h
    by_cases hr : r.alignment = 0
    · simp [computeOffsets, hr]
    · obtain ⟨s, hs, hs0⟩ := h
      rcases List.mem_cons.mp hs with heq | hmem
      · exact absurd (heq ▸ hs0) hr
      · simp [computeOffsets, hr,
          ih (alignRound size r.alignment + r.size) (mask &&& r.memoryTypeBits) ⟨s, hmem, hs0⟩]

/-- `allocate` on a positive-alignment list, written through the
found-memory-type case split. -/
theorem allocate_eq_pos (memoryTypes : List MemoryType) (reqs : List MemoryRequirements)
    (properties : Nat) (hpos : ∀ r ∈ reqs, 0 < r.alignment) :
    allocate memoryTypes reqs properties =
      match findMemoryType properties (reqs.foldl (fun a r => a &&& r.memoryTypeBits) u32Max)
          0 memoryTypes with
      | none => .error
      | some k => .ok k (layoutOffsets 0 reqs) (totalSize 0 reqs) := by
  unfold allocate
  rw [computeOffsets_eq reqs 0 u32Max hpos]

/-! ### The allocator claims -/

/-- C1: for every non-empty list of memory requirements whose alignments
are all positive, `Base::allocate` computes one offset per requirement,
each offset being the previous running size rounded up to the current
requirement's alignment, each offset satisfying
`offset % alignment == 0`, and the offsets monotonically increasing
(non-decreasing) in input order; whenever `allocate` succeeds, the offsets
it returns are exactly these. -/
theorem c1_allocate_offsets (memoryTypes : List MemoryType) (properties : Nat)
    (reqs : List MemoryRequirements) (_hne : reqs ≠ [])
    (hpos : ∀ r ∈ reqs, 0 < r.alignment) :
    computeOffsets 0 u32Max reqs =
      some (layoutOffsets 0 reqs, totalSize 0 reqs,
        reqs.foldl (fun a r => a &&& r.memoryTypeBits) u32Max) ∧
    (layoutOffsets 0 reqs).length = reqs.length ∧
    List.Forall₂ (fun r o => o % r.alignment = 0) reqs (layoutOffsets 0 reqs) ∧
    (layoutOffsets 0 reqs).Sorted (· ≤ ·) ∧
    ∀ i offs sz, allocate memoryTypes reqs properties = .ok i offs sz →
      offs = layoutOffsets 0 reqs := by
  refine ⟨computeOffsets_eq reqs 0 u32Max hpos, layoutOffsets_length reqs 0,
    layoutOffsets_aligned reqs 0 hpos, layoutOffsets_sorted reqs 0 hpos, ?_⟩
  intro i offs sz h
  rw [allocate_eq_pos memoryTypes reqs properties hpos] at h
  cases hf : findMemoryType properties
      (reqs.foldl (fun a r => a &&& r.memoryTypeBits) u32Max) 0 memoryTypes with
  | none => simp [hf] at h
  | some k => simp [hf] at h; exact h.2.1.symm

/-- Witness for C1 at the concrete requirements list
`[(size 16, align 4, bits 3), (size 10, align 8, bits 1), (size 1, align 2, bits 7)]`,
whose layout offsets are `[0, 16, 26]`. -/
theorem c1_allocate_offsets_witness :
    ([⟨16, 4, 3⟩, ⟨10, 8, 1⟩, ⟨1, 2, 7⟩] : List MemoryRequirements) ≠ [] ∧
    (∀ r ∈ ([⟨16, 4, 3⟩, ⟨10, 8, 1⟩, ⟨1, 2, 7⟩] : List MemoryRequirements), 0 < r.alignment) ∧
    layoutOffsets 0 [⟨16, 4, 3⟩, ⟨10, 8, 1⟩, ⟨1, 2, 7⟩] = [0, 16, 26] ∧
    List.Forall₂ (fun r o => o % r.alignment = 0)
      ([⟨16, 4, 3⟩, ⟨10, 8, 1⟩, ⟨1, 2, 7⟩] : List MemoryRequirements)
      (layoutOffsets 0 [⟨16, 4, 3⟩, ⟨10, 8, 1⟩, ⟨1, 2, 7⟩]) ∧
    (layoutOffsets 0 [⟨16, 4, 3⟩, ⟨10, 8, 1⟩, ⟨1, 2, 7⟩]).Sorted (· ≤ ·) :=
  ⟨by decide, by decide, by decide,
    (c1_allocate_offsets [⟨1⟩] 1 [⟨16, 4, 3⟩, ⟨10, 8, 1⟩, ⟨1, 2, 7⟩]
      (by decide) (by decide)).2.2.1,
    (c1_allocate_offsets [⟨1⟩] 1 [⟨16, 4, 3⟩, ⟨10, 8, 1⟩, ⟨1, 2, 7⟩]
      (by decide) (by decide)).2.2.2.1⟩

/-- C5: `Base::allocate` selects the first memory type index whose property
flags contain the requested flags and whose bit is set in the intersection
of all requirements' memory-type bitmasks, and returns the error exactly
when no index qualifies — in particular whenever the intersected bitmask is
zero. -/
theorem c5_allocate_memory_type_selection (memoryTypes : List MemoryType)
    (reqs : List MemoryRequirements) (properties : Nat)
    (hpos : ∀ r ∈ reqs, 0 < r.alignment) :
    (allocate memoryTypes reqs properties = .error ↔
      ∀ j t, memoryTypes.get? j = some t →
        memTypeOk properties (reqs.foldl (fun a r => a &&& r.memoryTypeBits) u32Max) j t
          = false) ∧
    (∀ k offs sz, allocate memoryTypes reqs properties = .ok k offs sz →
      (∃ t, memoryTypes.get? k = some t ∧
        memTypeOk properties (reqs.foldl (fun a r => a &&& r.memoryTypeBits) u32Max) k t
          = true) ∧
      ∀ j, j < k → ∃ t, memoryTypes.get? j = some t ∧
        memTypeOk properties (reqs.foldl (fun a r => a &&& r.memoryTypeBits) u32Max) j t
          = false) ∧
    (reqs.foldl (fun a r => a &&& r.memoryTypeBits) u32Max = 0 →
      allocate memoryTypes reqs properties = .error) := by
  have halloc := allocate_eq_pos memoryTypes reqs properties hpos
  set supported := reqs.foldl (fun a r => a &&& r.memoryTypeBits) u32Max with hsup
  have herr : allocate memoryTypes reqs properties = .error ↔
      findMemoryType properties supported 0 memoryTypes = none := by
    rw [halloc]
    cases hf : findMemoryType properties supported 0 memoryTypes <;> simp [hf]
  refine ⟨?_, ?_, ?_⟩
  · rw [herr, findMemoryType_none_iff]
    simp
  · intro k offs sz h
    rw [halloc] at h
    cases hf : findMemoryType properties supported 0 memoryTypes with
    | none => simp [hf] at h
    | some m =>
      simp [hf] at h
      obtain ⟨hmk, -, -⟩ := h
      rw [← hmk]
      obtain ⟨-, ⟨t, ht, hok⟩, hfirst⟩ := findMemoryType_some_spec properties supported
        memoryTypes 0 m hf
      refine ⟨⟨t, by simpa using ht, hok⟩, fun j hj => ?_⟩
      obtain ⟨u, hu, huok⟩ := hfirst j (Nat.zero_le j) hj
      exact ⟨u, by simpa using hu, huok⟩
  · intro hzero
    rw [herr, findMemoryType_none_iff]
    intro j t _
    rw [hzero]
    exact memTypeOk_zero_mask properties (0 + j) t

/-- Witness for C5: two requirements with disjoint memory-type bitmasks
(`1` and `2`) make the intersected mask zero, and `allocate` returns the
error even though a memory type with matching property flags exists. -/
theorem c5_allocate_memory_type_selection_witness :
    (∀ r ∈ ([⟨8, 4, 1⟩, ⟨8, 4, 2⟩] : List MemoryRequirements), 0 < r.alignment) ∧
    allocate [⟨3⟩] [⟨8, 4, 1⟩, ⟨8, 4, 2⟩] 1 = .error :=
  ⟨by decide,
    (c5_allocate_memory_type_selection [⟨3⟩] [⟨8, 4, 1⟩, ⟨8, 4, 2⟩] 1 (by decide)).2.2
      (by decide)⟩

/-- C6 counterexample: `Base::allocate` does not reject the empty
requirements list. With one memory type whose property flags contain the
requested flag, `allocate` on `[]` succeeds with no offsets and a zero-size
allocation instead of returning an error. -/
theorem c6_counterexample_empty_list_accepted :
    allocate [⟨1⟩] [] 1 = .ok 0 [] 0 ∧ allocate [⟨1⟩] [] 1 ≠ .error := by
  constructor <;> decide

/-- C6 amended: `Base::allocate` does not reject a zero-length requirements
list. For the empty list the offset loop is skipped (zero total size,
`u32::MAX` mask), and `allocate` errors exactly when no memory type matches
the requested property flags; otherwise it returns the first matching type
with an empty offsets vector and size zero. -/
theorem c6_allocate_empty_behavior (memoryTypes : List MemoryType) (properties : Nat) :
    (allocate memoryTypes [] properties = .error ↔
      findMemoryType properties u32Max 0 memoryTypes = none) ∧
    ∀ k, findMemoryType properties u32Max 0 memoryTypes = some k →
      allocate memoryTypes [] properties = .ok k [] 0 := by
  constructor
  · cases hf : findMemoryType properties u32Max 0 memoryTypes <;>
      simp [allocate, computeOffsets, hf]
  · intro k hf
    simp [allocate, computeOffsets, hf]

/-- C10: any requirements list containing an element with alignment `0`
makes `Base::allocate` panic with a division by zero (`size % 0`), whatever
the device's memory types and the requested properties: positive alignment
is an unstated precondition of the allocate contract. -/
theorem c10_allocate_zero_alignment_panics (memoryTypes : List MemoryType)
    (properties : Nat) (reqs : List MemoryRequirements)
    (h : ∃ r ∈ reqs, r.alignment = 0) :
    allocate memoryTypes reqs properties = .panic := by
  unfold allocate
  rw [computeOffsets_none_of_zero reqs 0 u32Max h]

/-- Witness for C10: a single requirement with alignment `0` panics. -/
theorem c10_allocate_zero_alignment_panics_witness :
    allocate [⟨1⟩] [⟨4, 0, 1⟩] 1 = .panic :=
  c10_allocate_zero_alignment_panics [⟨1⟩] 1 [⟨4, 0, 1⟩] ⟨⟨4, 0, 1⟩, by decide, rfl⟩

/-! ### Helper lemmas about the arena -/

theorem roundUpAlign_ge (n : Nat) : n ≤ roundUpAlign n := by
  unfold roundUpAlign ALIGNMENT
  omega

theorem Arena.extend_offset (a : Arena) (bytes : List Nat) : (a.extend bytes).2 = a.size := by
  by_cases h : a.size + roundUpAlign bytes.length > a.capacity <;> simp [Arena.extend, h]

theorem Arena.extend_size (a : Arena) (bytes : List Nat) :
    (a.extend bytes).1.size = a.size + roundUpAlign bytes.length := by
  by_cases h : a.size + roundUpAlign bytes.length > a.capacity <;> simp [Arena.extend, h]

theorem Arena.extend_data (a : Arena) (bytes : List Nat) :
    (a.extend bytes).1.data = writeBytes a.data a.size bytes := by
  by_cases h : a.size + roundUpAlign bytes.length > a.capacity <;> simp [Arena.extend, h]

theorem Arena.extend_capacity (a : Arena) (bytes : List Nat) :
    (a.extend bytes).1.capacity = max a.capacity (a.size + roundUpAlign bytes.length) := by
  by_cases h : a.size + roundUpAlign bytes.length > a.capacity <;> simp [Arena.extend, h] <;> omega

/-- When the rounded content size stays within capacity, `extend` keeps the
capacity and performs no reallocation. -/
theorem Arena.extend_no_realloc (a : Arena) (bytes : List Nat)
    (h : a.size + roundUpAlign bytes.length ≤ a.capacity) :
    (a.extend bytes).1.capacity = a.capacity ∧ (a.extend bytes).1.reallocs = a.reallocs := by
  have hn : ¬ (a.size + roundUpAlign bytes.length > a.capacity) := by omega
  simp [Arena.extend, hn]

/-- Reading the written region back from a byte store yields the bytes. -/
theorem readBack_writeBytes (d : Nat → Nat) (offset : Nat) (bytes : List Nat) :
    (List.range bytes.length).map (fun i => writeBytes d offset bytes (offset + i)) = bytes := by
  apply List.ext_getElem
  · simp
  · intro i h1 h2
    simp only [List.getElem_map, List.getElem_range, writeBytes]
    rw [if_pos (by simp at h1; omega)]
    have hi : offset + i - offset = i := by omega
    rw [hi, List.getD_eq_getElem bytes 0 h2]

/-- Bytes strictly below the written region are unchanged. -/
theorem writeBytes_below (d : Nat → Nat) (offset : Nat) (bytes : List Nat) (i : Nat)
    (h : i < offset) : writeBytes d offset bytes i = d i := by
  unfold writeBytes
  rw [if_neg (by omega)]

/-- `extend` leaves every byte strictly below the previous content size
unchanged: later appends never overwrite earlier ones. -/
theorem Arena.extend_readBack_preserved (a : Arena) (bytes : List Nat) (offset len : Nat)
    (h : offset + len ≤ a.size) :
    (a.extend bytes).1.readBack offset len = a.readBack offset len := by
  unfold Arena.readBack
  rw [Arena.extend_data]
  apply List.map_congr_left
  intro i hi
  simp only [List.mem_range] at hi
  exact writeBytes_below a.data a.size bytes (offset + i) (by omega)

/-- Reading an append back from its returned offset yields the appended
bytes. -/
theorem Arena.extend_readBack_self (a : Arena) (bytes : List Nat) :
    (a.extend bytes).1.readBack (a.extend bytes).2 bytes.length = bytes := by
  unfold Arena.readBack
  rw [Arena.extend_data, Arena.extend_offset]
  exact readBack_writeBytes a.data a.size bytes

/-! ### The arena claims -/

/-- C7: appending byte sequences `A`, `B`, `C` and reading each back from
its returned offset reproduces `A`, `B`, `C` exactly — appends never
overwrite earlier appends — and after `clear()`, an `extend` whose
alignment-rounded size stays within the previous peak capacity keeps the
capacity and performs no reallocation. -/
theorem c7_arena_round_trip (a0 : Arena) (A B C : List Nat) :
    let e1 := a0.extend A
    let e2 := e1.1.extend B
    let e3 := e2.1.extend C
    (e3.1.readBack e1.2 A.length = A ∧
     e3.1.readBack e2.2 B.length = B ∧
     e3.1.readBack e3.2 C.length = C) ∧
    ∀ D : List Nat, roundUpAlign D.length ≤ e3.1.capacity →
      ((e3.1.clear).extend D).1.capacity = e3.1.capacity ∧
      ((e3.1.clear).extend D).1.reallocs = e3.1.reallocs := by
  intro e1 e2 e3
  have hA := roundUpAlign_ge A.length
  have hB := roundUpAlign_ge B.length
  have h1s : e1.1.size = a0.size + roundUpAlign A.length := Arena.extend_size a0 A
  have h2s : e2.1.size = e1.1.size + roundUpAlign B.length := Arena.extend_size e1.1 B
  have h1o : e1.2 = a0.size := Arena.extend_offset a0 A
  have h2o : e2.2 = e1.1.size := Arena.extend_offset e1.1 B
  constructor
  · refine ⟨?_, ?_, ?_⟩
    · rw [Arena.extend_readBack_preserved e2.1 C e1.2 A.length (by omega),
        Arena.extend_readBack_preserved e1.1 B e1.2 A.length (by omega)]
      exact Arena.extend_readBack_self a0 A
    · rw [Arena.extend_readBack_preserved e2.1 C e2.2 B.length (by omega)]
      exact Arena.extend_readBack_self e1.1 B
    · exact Arena.extend_readBack_self e2.1 C
  · intro D hD
    have := Arena.extend_no_realloc e3.1.clear D
      (by simpa [Arena.clear] using hD)
    simpa [Arena.clear] using this

/-- Witness for C7 at `A = [1, 2, 3]`, `B = [4]`, `C = [5, 6]`, reading `A`
back through both later appends, and a post-`clear` append of ten bytes
within the sixteen-byte peak capacity. -/
theorem c7_arena_round_trip_witness :
    ((((Arena.new 0).extend [1, 2, 3]).1.extend [4]).1.extend [5, 6]).1.readBack
      ((Arena.new 0).extend [1, 2, 3]).2 3 = [1, 2, 3] ∧
    roundUpAlign ([7, 7, 7, 7, 7, 7, 7, 7, 7, 7] : List Nat).length ≤
      ((((Arena.new 0).extend [1, 2, 3]).1.extend [4]).1.extend [5, 6]).1.capacity ∧
    (((((Arena.new 0).extend [1, 2, 3]).1.extend [4]).1.extend [5, 6]).1.clear.extend
      [7, 7, 7, 7, 7, 7, 7, 7, 7, 7]).1.capacity =
      ((((Arena.new 0).extend [1, 2, 3]).1.extend [4]).1.extend [5, 6]).1.capacity :=
  ⟨((c7_arena_round_trip (Arena.new 0) [1, 2, 3] [4] [5, 6]).1).1,
   by decide,
   ((c7_arena_round_trip (Arena.new 0) [1, 2, 3] [4] [5, 6]).2
     [7, 7, 7, 7, 7, 7, 7, 7, 7, 7] (by decide)).1⟩

/-! ### Helper lemmas about `Transfer::submit` -/

/-- The full trace and result of a successful `submit`. -/
theorem submit_trace_ok (st : TransferState) (t : Transaction) (frame : Nat) :
    Transfer.submit st t frame true =
      (Event.waitSemaphore frame (st.counts.getD frame 0) TIMEOUT ::
        (if st.stagingSizes.getD frame 0 < t.arena.sizeMethod
         then [Event.recreateStaging frame t.arena.sizeMethod] else []) ++
        [Event.writeStaging frame t.arena.sizeMethod, Event.beginCommandBuffer frame] ++
        (recordedCommands frame t).map (Event.cmd frame) ++
        [Event.endCommandBuffer frame,
         Event.queueSubmit frame frame (st.counts.getD frame 0 + 1)],
       .ok (frame, st.counts.getD frame 0 + 1,
         { stagingSizes := if st.stagingSizes.getD frame 0 < t.arena.sizeMethod
             then st.stagingSizes.set frame t.arena.sizeMethod else st.stagingSizes,
           counts := st.counts.set frame (st.counts.getD frame 0 + 1) })) := rfl

/-- The trace and result of a timed-out `submit`. -/
theorem submit_trace_err (st : TransferState) (t : Transaction) (frame : Nat) :
    Transfer.submit st t frame false =
      ([Event.waitSemaphore frame (st.counts.getD frame 0) TIMEOUT], .error ()) := rfl

/-! ### The arena-size claim -/

/-- C9: `Arena::size()` returns the allocated capacity (the layout size),
not the logical content size — after `clear()` it still returns the
previous peak capacity — and `Transfer::submit` copies that full capacity
from the arena into the slot's staging memory, regardless of the content
size. -/
theorem c9_arena_size_is_capacity (a : Arena) (st : TransferState) (t : Transaction)
    (frame : Nat) :
    a.sizeMethod = a.capacity ∧
    a.clear.sizeMethod = a.sizeMethod ∧
    a.clear.size = 0 ∧
    Event.writeStaging frame t.arena.sizeMethod ∈ (Transfer.submit st t frame true).1 := by
  refine ⟨rfl, rfl, rfl, ?_⟩
  rw [submit_trace_ok]
  simp

/-! ### The transfer-protocol claims -/

/-- C3: `Transfer::submit` for slot `frame` first waits — bounded by
`TIMEOUT` — for the slot's timeline semaphore to reach the count recorded
by that slot's previous submission, surfacing a timeout as an error before
touching the slot's staging memory; on success it increments exactly that
slot's count by one, signals the slot's semaphore to the new value in the
queue submission, and returns that semaphore together with the new count —
so each slot's count strictly increases across submissions. -/
theorem c3_submit_protocol (st : TransferState) (t : Transaction) (frame : Nat)
    (waitOk : Bool) (hframe : frame < st.counts.length) :
    (Transfer.submit st t frame waitOk).1.head? =
      some (Event.waitSemaphore frame (st.counts.getD frame 0) TIMEOUT) ∧
    (waitOk = false →
      Transfer.submit st t frame waitOk =
        ([Event.waitSemaphore frame (st.counts.getD frame 0) TIMEOUT], .error ())) ∧
    (waitOk = true → ∃ rest st',
      (Transfer.submit st t frame waitOk).1 =
        Event.waitSemaphore frame (st.counts.getD frame 0) TIMEOUT :: rest ∧
      (Transfer.submit st t frame waitOk).2 =
        .ok (frame, st.counts.getD frame 0 + 1, st') ∧
      Event.writeStaging frame t.arena.sizeMethod ∈ rest ∧
      Event.queueSubmit frame frame (st.counts.getD frame 0 + 1) ∈ rest ∧
      st'.counts.getD frame 0 = st.counts.getD frame 0 + 1 ∧
      ∀ g, g ≠ frame → st'.counts.getD g 0 = st.counts.getD g 0) := by
  cases waitOk with
  | false =>
    refine ⟨?_, fun _ => submit_trace_err st t frame, fun h => absurd h (by decide)⟩
    rw [submit_trace_err]
    rfl
  | true =>
    refine ⟨?_, fun h => absurd h (by decide), fun _ => ?_⟩
    · rw [submit_trace_ok]
      rfl
    · refine ⟨(if st.stagingSizes.getD frame 0 < t.arena.sizeMethod
          then [Event.recreateStaging frame t.arena.sizeMethod] else []) ++
          [Event.writeStaging frame t.arena.sizeMethod, Event.beginCommandBuffer frame] ++
          (recordedCommands frame t).map (Event.cmd frame) ++
          [Event.endCommandBuffer frame,
           Event.queueSubmit frame frame (st.counts.getD frame 0 + 1)],
        { stagingSizes := if st.stagingSizes.getD frame 0 < t.arena.sizeMethod
            then st.stagingSizes.set frame t.arena.sizeMethod else st.stagingSizes,
          counts := st.counts.set frame (st.counts.getD frame 0 + 1) },
        ?_, ?_, ?_, ?_, ?_, ?_⟩
      · rw [submit_trace_ok]
        simp [List.cons_append, List.append_assoc]
      · rw [submit_trace_ok]
      · simp
      · simp
      · simp [List.getD_eq_getElem?_getD, List.getElem?_set_self',
          List.getElem?_eq_getElem hframe]
      · intro g hg
        simp [List.getD_eq_getElem?_getD, List.getElem?_set_ne (fun h => hg h.symm)]

/-- Witness for C3 at one frame slot with previous count `5`: the first
action is the bounded wait for value `5`. -/
theorem c3_submit_protocol_witness :
    (0 : Nat) < ([5] : List Nat).length ∧
    (Transfer.submit ⟨[64], [5]⟩ (Transaction.new 0 1) 0 true).1.head? =
      some (Event.waitSemaphore 0 5 TIMEOUT) :=
  ⟨by decide, (c3_submit_protocol ⟨[64], [5]⟩ (Transaction.new 0 1) 0 true (by decide)).1⟩

/-- C4 counterexample: for a transaction with one image write, the
end-barrier IS recorded into the same command buffer `Transfer::submit`
records (transfer.rs lines 164-169 call `cmd_pipeline_barrier2` with
`end_image_barriers` on `self.command_buffers[frame]`), contradicting the
claim that it is not. -/
theorem c4_counterexample_end_barrier_in_buffer :
    Cmd.pipelineBarrier
        ((Transaction.new 0 1).image_write [5] 2 3 [{ buffer_offset := 0, rest := 0 }] 9).end_image_barriers
      ∈ recordedCommands 0
        ((Transaction.new 0 1).image_write [5] 2 3 [{ buffer_offset := 0, rest := 0 }] 9) ∧
    ((Transaction.new 0 1).image_write [5] 2 3 [{ buffer_offset := 0, rest := 0 }] 9).end_image_barriers
      = [endBarrier 0 1 2 3 9] ∧
    Event.cmd 0 (Cmd.pipelineBarrier [endBarrier 0 1 2 3 9]) ∈
      (Transfer.submit ⟨[64], [0]⟩
        ((Transaction.new 0 1).image_write [5] 2 3 [{ buffer_offset := 0, rest := 0 }] 9)
        0 true).1 := by
  refine ⟨by decide, by decide, by decide⟩

/-- C4 amended: for every transaction whose start- and end-barrier lists
are non-empty (as after at least one image write), the command buffer
recorded by `Transfer::submit` contains the buffer copies, then the batched
start-barriers, then the buffer-to-image copies, then the end-barriers —
the end-barriers are recorded in this same command buffer, as its last
command, not handed to the frame pipeline. -/
theorem c4_command_order (stagingBuffer : Nat) (t : Transaction)
    (hstart : t.start_image_barriers ≠ []) (hend : t.end_image_barriers ≠ []) :
    recordedCommands stagingBuffer t =
      (t.buffer_transfers.map fun tr =>
        Cmd.copyBuffer stagingBuffer tr.dst tr.src_offset tr.dst_offset tr.size) ++
      [Cmd.pipelineBarrier t.start_image_barriers] ++
      (t.image_transfers.map fun tr =>
        Cmd.copyBufferToImage stagingBuffer tr.dst IMAGE_LAYOUT_TRANSFER_DST_OPTIMAL
          ((t.regions.drop tr.region_offset).take tr.region_count)) ++
      [Cmd.pipelineBarrier t.end_image_barriers] ∧
    (recordedCommands stagingBuffer t).getLast? =
      some (Cmd.pipelineBarrier t.end_image_barriers) := by
  have h1 : 0 < t.start_image_barriers.length := List.length_pos.mpr hstart
  have h2 : 0 < t.end_image_barriers.length := List.length_pos.mpr hend
  have heq : recordedCommands stagingBuffer t =
      ((t.buffer_transfers.map fun tr =>
        Cmd.copyBuffer stagingBuffer tr.dst tr.src_offset tr.dst_offset tr.size) ++
      [Cmd.pipelineBarrier t.start_image_barriers] ++
      (t.image_transfers.map fun tr =>
        Cmd.copyBufferToImage stagingBuffer tr.dst IMAGE_LAYOUT_TRANSFER_DST_OPTIMAL
          ((t.regions.drop tr.region_offset).take tr.region_count))) ++
      [Cmd.pipelineBarrier t.end_image_barriers] := by
    unfold recordedCommands
    rw [if_pos h1, if_pos h2]
  refine ⟨heq, ?_⟩
  rw [heq, List.getLast?_concat]

/-- Witness for C4 at the one-image-write transaction: the recorded
commands end with the end-barrier transition. -/
theorem c4_command_order_witness :
    ((Transaction.new 0 1).image_write [5] 2 3
      [{ buffer_offset := 0, rest := 0 }] 9).start_image_barriers ≠ [] ∧
    ((Transaction.new 0 1).image_write [5] 2 3
      [{ buffer_offset := 0, rest := 0 }] 9).end_image_barriers ≠ [] ∧
    (recordedCommands 0 ((Transaction.new 0 1).image_write [5] 2 3
        [{ buffer_offset := 0, rest := 0 }] 9)).getLast? =
      some (Cmd.pipelineBarrier ((Transaction.new 0 1).image_write [5] 2 3
        [{ buffer_offset := 0, rest := 0 }] 9).end_image_barriers) :=
  ⟨by decide, by decide,
    (c4_command_order 0 ((Transaction.new 0 1).image_write [5] 2 3
      [{ buffer_offset := 0, rest := 0 }] 9) (by decide) (by decide)).2⟩

/-- C8 counterexample: none of the three wait timeouts is roughly one
second — the transfer semaphore wait uses two seconds and the frame-fence
and swapchain-acquire waits use a tenth of a second. -/
theorem c8_counterexample_not_one_second :
    ¬ roughlyOneSecond TIMEOUT ∧ ¬ roughlyOneSecond ACQUIRE_TIMEOUT ∧
    ¬ roughlyOneSecond FENCE_TIMEOUT := by
  refine ⟨?_, ?_, ?_⟩ <;> simp [roughlyOneSecond, TIMEOUT, ACQUIRE_TIMEOUT, FENCE_TIMEOUT]

/-- C8 amended: every blocking wait of the core uses an explicit bounded
timeout — two seconds for the transfer engine's timeline-semaphore wait,
one hundred milliseconds for the frame pipeline's fence wait and for the
swapchain acquire — each strictly below the `u64::MAX` infinite-wait
sentinel, and a timed-out wait is surfaced as an error to the caller. -/
theorem c8_bounded_waits (st : TransferState) (t : Transaction) (frame : Nat) :
    (0 < TIMEOUT ∧ TIMEOUT < u64Max ∧ 0 < ACQUIRE_TIMEOUT ∧ ACQUIRE_TIMEOUT < u64Max ∧
     0 < FENCE_TIMEOUT ∧ FENCE_TIMEOUT < u64Max) ∧
    (∀ waitOk sem v tmo,
      Event.waitSemaphore sem v tmo ∈ (Transfer.submit st t frame waitOk).1 →
      tmo = TIMEOUT) ∧
    (Transfer.submit st t frame false).2 = .error () ∧
    (∀ acquireOk fenceOk tmo,
      DrawEvent.acquireImage tmo ∈ (Renderer.drawWaits acquireOk fenceOk).1 →
      tmo = ACQUIRE_TIMEOUT) ∧
    (∀ acquireOk fenceOk tmo,
      DrawEvent.waitFence tmo ∈ (Renderer.drawWaits acquireOk fenceOk).1 →
      tmo = FENCE_TIMEOUT) ∧
    (Renderer.drawWaits false true).2 = .error () ∧
    (Renderer.drawWaits true false).2 = .error () := by
  refine ⟨by simp [TIMEOUT, ACQUIRE_TIMEOUT, FENCE_TIMEOUT, u64Max], ?_, ?_, ?_, ?_, rfl, rfl⟩
  · intro waitOk sem v tmo h
    cases waitOk
    · rw [submit_trace_err] at h
      simp at h
      exact h.2.2
    · rw [submit_trace_ok] at h
      by_cases hre : st.stagingSizes.getD frame 0 < t.arena.sizeMethod <;>
        simp [hre] at h <;> exact h.2.2
  · rw [submit_trace_err]
  · intro acquireOk fenceOk tmo h
    cases acquireOk <;> cases fenceOk <;> simp [Renderer.drawWaits] at h <;> omega
  · intro acquireOk fenceOk tmo h
    cases acquireOk <;> cases fenceOk <;> simp [Renderer.drawWaits] at h <;> omega

/-! ### Helper lemmas about `Transaction::image_write` -/

theorem imageWrites_cons (t : Transaction) (w : ImageWriteArgs) (ws : List ImageWriteArgs) :
    t.imageWrites (w :: ws) =
      (t.image_write w.src w.dst w.subresource_range w.regions w.layout).imageWrites ws := rfl

theorem image_write_queues (t : Transaction) (src : List Nat) (dst sr : Nat)
    (regions : List BufferImageCopy) (layout : Nat) :
    (t.image_write src dst sr regions layout).src_queue_family = t.src_queue_family ∧
    (t.image_write src dst sr regions layout).dst_queue_family = t.dst_queue_family :=
  ⟨rfl, rfl⟩

theorem imageWrites_queues (ws : List ImageWriteArgs) : ∀ t : Transaction,
    (t.imageWrites ws).src_queue_family = t.src_queue_family ∧
    (t.imageWrites ws).dst_queue_family = t.dst_queue_family := by
  induction ws with
  | nil => intro t; exact ⟨rfl, rfl⟩
  | cons w ws ih =>
    intro t
    rw [imageWrites_cons]
    exact ih (t.image_write w.src w.dst w.subresource_range w.regions w.layout)

theorem image_write_start (t : Transaction) (src : List Nat) (dst sr : Nat)
    (regions : List BufferImageCopy) (layout : Nat) :
    (t.image_write src dst sr regions layout).start_image_barriers =
      t.start_image_barriers ++ [startBarrier t.src_queue_family dst sr] := rfl

theorem image_write_end (t : Transaction) (src : List Nat) (dst sr : Nat)
    (regions : List BufferImageCopy) (layout : Nat) :
    (t.image_write src dst sr regions layout).end_image_barriers =
      t.end_image_barriers ++
        [endBarrier t.src_queue_family t.dst_queue_family dst sr layout] := rfl

theorem image_write_transfers (t : Transaction) (src : List Nat) (dst sr : Nat)
    (regions : List BufferImageCopy) (layout : Nat) :
    (t.image_write src dst sr regions layout).image_transfers =
      t.image_transfers ++
        [{ dst, subresource_range := sr, region_offset := t.regions.length,
           region_count := regions.length, layout }] := rfl

theorem image_write_regions_length (t : Transaction) (src : List Nat) (dst sr : Nat)
    (regions : List BufferImageCopy) (layout : Nat) :
    (t.image_write src dst sr regions layout).regions.length =
      t.regions.length + regions.length := by
  show (t.regions ++ regions.map _).length = _
  simp

theorem imageWrites_start (ws : List ImageWriteArgs) : ∀ t : Transaction,
    (t.imageWrites ws).start_image_barriers =
      t.start_image_barriers ++
        ws.map (fun w => startBarrier t.src_queue_family w.dst w.subresource_range) := by
  induction ws with
  | nil => intro t; simp [Transaction.imageWrites]
  | cons w ws ih =>
    intro t
    rw [imageWrites_cons,
      ih (t.image_write w.src w.dst w.subresource_range w.regions w.layout),
      image_write_start]
    simp [List.append_assoc]
    exact fun a _ => rfl

theorem imageWrites_end (ws : List ImageWriteArgs) : ∀ t : Transaction,
    (t.imageWrites ws).end_image_barriers =
      t.end_image_barriers ++
        ws.map (fun w => endBarrier t.src_queue_family t.dst_queue_family w.dst
          w.subresource_range w.layout) := by
  induction ws with
  | nil => intro t; simp [Transaction.imageWrites]
  | cons w ws ih =>
    intro t
    rw [imageWrites_cons,
      ih (t.image_write w.src w.dst w.subresource_range w.regions w.layout),
      image_write_end]
    simp [List.append_assoc]
    exact fun a _ => rfl

theorem imageWrites_transfers (ws : List ImageWriteArgs) : ∀ t : Transaction,
    (t.imageWrites ws).image_transfers =
      t.image_transfers ++ transfersFrom t.regions.length ws := by
  induction ws with
  | nil => intro t; simp [Transaction.imageWrites, transfersFrom]
  | cons w ws ih =>
    intro t
    rw [imageWrites_cons,
      ih (t.image_write w.src w.dst w.subresource_range w.regions w.layout),
      image_write_transfers, image_write_regions_length, transfersFrom]
    simp [List.append_assoc]

theorem transfersFrom_length (ws : List ImageWriteArgs) :
    ∀ off, (transfersFrom off ws).length = ws.length := by
  induction ws with
  | nil => intro off; rfl
  | cons w ws ih => intro off; simp [transfersFrom, ih]

/-- Pairing lists produced elementwise from the same call list. -/
theorem forall₂_map_self {α β : Type} (f : α → β) (R : α → β → Prop)
    (h : ∀ a, R a (f a)) (l : List α) : List.Forall₂ R l (l.map f) := by
  induction l with
  | nil => exact List.Forall₂.nil
  | cons a l ih => exact List.Forall₂.cons (h a) ih

theorem transfersFrom_pairing_end (sq dq : Nat) (ws : List ImageWriteArgs) :
    ∀ off, List.Forall₂ (fun tr b => b.image = tr.dst ∧
        b.subresource_range = tr.subresource_range ∧ b.new_layout = tr.layout)
      (transfersFrom off ws)
      (ws.map fun w => endBarrier sq dq w.dst w.subresource_range w.layout) := by
  induction ws with
  | nil => intro off; exact List.Forall₂.nil
  | cons w ws ih =>
    intro off
    exact List.Forall₂.cons ⟨rfl, rfl, rfl⟩ (ih (off + w.regions.length))

theorem transfersFrom_pairing_start (sq : Nat) (ws : List ImageWriteArgs) :
    ∀ off, List.Forall₂ (fun tr b => b.image = tr.dst ∧
        b.subresource_range = tr.subresource_range)
      (transfersFrom off ws)
      (ws.map fun w => startBarrier sq w.dst w.subresource_range) := by
  induction ws with
  | nil => intro off; exact List.Forall₂.nil
  | cons w ws ih =>
    intro off
    exact List.Forall₂.cons ⟨rfl, rfl⟩ (ih (off + w.regions.length))

/-! ### The transaction claim -/

/-- C2: for every sequence of `N` `image_write` calls on a fresh or freshly
cleared transaction, the transaction holds exactly `N` image-copy
descriptors, `N` start-barriers and `N` end-barriers, paired at the same
list index (same destination image, subresource range and, for
end-barriers, final layout); every end-barrier carries the transaction's
transfer family as source queue family and its consumer family as
destination queue family, and transitions from the transfer-destination
layout to the caller-specified final layout. -/
theorem c2_image_write_invariants (t0 : Transaction) (ws : List ImageWriteArgs)
    (hfresh : t0.image_transfers = [] ∧ t0.start_image_barriers = [] ∧
      t0.end_image_barriers = []) :
    (t0.imageWrites ws).image_transfers.length = ws.length ∧
    (t0.imageWrites ws).start_image_barriers.length = ws.length ∧
    (t0.imageWrites ws).end_image_barriers.length = ws.length ∧
    (t0.imageWrites ws).end_image_barriers =
      ws.map (fun w => endBarrier t0.src_queue_family t0.dst_queue_family w.dst
        w.subresource_range w.layout) ∧
    (t0.imageWrites ws).start_image_barriers =
      ws.map (fun w => startBarrier t0.src_queue_family w.dst w.subresource_range) ∧
    (∀ b ∈ (t0.imageWrites ws).end_image_barriers,
      b.src_queue_family_index = t0.src_queue_family ∧
      b.dst_queue_family_index = t0.dst_queue_family ∧
      b.old_layout = IMAGE_LAYOUT_TRANSFER_DST_OPTIMAL) ∧
    List.Forall₂ (fun w b => b.new_layout = w.layout) ws
      (t0.imageWrites ws).end_image_barriers ∧
    List.Forall₂ (fun tr b => b.image = tr.dst ∧
        b.subresource_range = tr.subresource_range ∧ b.new_layout = tr.layout)
      (t0.imageWrites ws).image_transfers (t0.imageWrites ws).end_image_barriers ∧
    List.Forall₂ (fun tr b => b.image = tr.dst ∧
        b.subresource_range = tr.subresource_range)
      (t0.imageWrites ws).image_transfers (t0.imageWrites ws).start_image_barriers := by
  obtain ⟨hT, hS, hE⟩ := hfresh
  have hend : (t0.imageWrites ws).end_image_barriers =
      ws.map (fun w => endBarrier t0.src_queue_family t0.dst_queue_family w.dst
        w.subresource_range w.layout) := by
    rw [imageWrites_end ws t0, hE, List.nil_append]
  have hstart : (t0.imageWrites ws).start_image_barriers =
      ws.map (fun w => startBarrier t0.src_queue_family w.dst w.subresource_range) := by
    rw [imageWrites_start ws t0, hS, List.nil_append]
  have htr : (t0.imageWrites ws).image_transfers =
      transfersFrom t0.regions.length ws := by
    rw [imageWrites_transfers ws t0, hT, List.nil_append]
  refine ⟨?_, ?_, ?_, hend, hstart, ?_, ?_, ?_, ?_⟩
  · rw [htr, transfersFrom_length]
  · rw [hstart, List.length_map]
  · rw [hend, List.length_map]
  · intro b hb
    rw [hend] at hb
    obtain ⟨w, -, hw⟩ := List.mem_map.mp hb
    exact hw ▸ ⟨rfl, rfl, rfl⟩
  · rw [hend]
    exact forall₂_map_self
      (fun w => endBarrier t0.src_queue_family t0.dst_queue_family w.dst
        w.subresource_range w.layout)
      (fun w b => b.new_layout = w.layout) (fun w => rfl) ws
  · rw [hend, htr]
    exact transfersFrom_pairing_end t0.src_queue_family t0.dst_queue_family ws
      t0.regions.length
  · rw [hstart, htr]
    exact transfersFrom_pairing_start t0.src_queue_family ws t0.regions.length

/-- Witness for C2: two image writes on a fresh transaction yield two
transfers and two barrier pairs, the end-barriers carrying queue families
`4 → 9` and the callers' final layouts `5` and `6`. -/
theorem c2_image_write_invariants_witness :
    ((Transaction.new 4 9).image_transfers = [] ∧
     (Transaction.new 4 9).start_image_barriers = [] ∧
     (Transaction.new 4 9).end_image_barriers = []) ∧
    ((Transaction.new 4 9).imageWrites
      [⟨[1], 2, 3, [{ buffer_offset := 0, rest := 0 }], 5⟩,
       ⟨[1, 2], 7, 8, [{ buffer_offset := 4, rest := 0 }], 6⟩]).end_image_barriers =
      [endBarrier 4 9 2 3 5, endBarrier 4 9 7 8 6] :=
  ⟨⟨rfl, rfl, rfl⟩,
    (c2_image_write_invariants (Transaction.new 4 9)
      [⟨[1], 2, 3, [{ buffer_offset := 0, rest := 0 }], 5⟩,
       ⟨[1, 2], 7, 8, [{ buffer_offset := 4, rest := 0 }], 6⟩]
      ⟨rfl, rfl, rfl⟩).2.2.2.1⟩

end Graphics
